import Mathlib

/-!
Shallow embedding of the musicvault-api orchestration layer
(src/ytdlp_handler.py and src/server.py), together with theorems about
the format normalizer, extraction fallback loop, download task state
updates, cancellation, thumbnail selection, filename sanitization and
the on-disk cache eviction routines.

Modelling conventions:
* Python `dict.get(key)` / `dict.get(key, default)` fields are `Option`
  fields (`none` models an absent or `None` value) read with `Option.getD`.
* Python string truthiness (`if s:`) is `optTruthyStr`; numeric
  truthiness is `optTruthyInt`.
* Python `str.lower()` is `strLower` (ASCII case folding, which is what
  the URLs, extensions and format notes in this code consist of).
* Python `needle in haystack` on strings is `strIn`.
* Python floats carrying timestamps are modelled as integer seconds;
  the single float *division* in the source,
  `age_hours = (now - mtime) / 3600` followed by
  `age_hours > max_age_hours`, is modelled by the equivalent (over the
  reals, since 3600 > 0) cross-multiplied comparison
  `now - mtime > max_age_hours * 3600`.
* Python floats carrying bitrates (`tbr`, `abr`, `fps`) are modelled as
  `Rat`; the code only compares them, never adds them.
* `list.sort(key=...)` / `sorted(..., key=...)` is `sortByKey`, a stable
  insertion sort by a key into a linear order; Python's sort is stable,
  and any two stable sorts by the same key denote the same function.
-/

namespace MusicVault

/-- ASCII lower-casing of one character, the fragment of Python
`str.lower()` exercised by this code base. -/
def charLower (c : Char) : Char :=
  if 'A' ≤ c ∧ c ≤ 'Z' then Char.ofNat (c.toNat + 32) else c

/-- Python `s.lower()` (ASCII). -/
def strLower (s : String) : String := ⟨s.data.map charLower⟩

/-- Whether the first list is a leading block of the second. -/
def charsStart : List Char → List Char → Bool
  | [], _ => true
  | _ :: _, [] => false
  | a :: as, b :: bs => a == b && charsStart as bs

/-- Whether `needle` occurs contiguously inside the second list. -/
def charsIn (needle : List Char) : List Char → Bool
  | [] => needle.isEmpty
  | b :: bs => charsStart needle (b :: bs) || charsIn needle bs

/-- Python `needle in hay` for strings (substring containment). -/
def strIn (needle hay : String) : Bool := charsIn needle.data hay.data

/-- Python truthiness of an optional string: `None` and `""` are falsy. -/
def optTruthyStr (o : Option String) : Bool := !(o.getD "" == "")

/-- Python truthiness of an optional integer: `None` and `0` are falsy. -/
def optTruthyInt (o : Option Int) : Bool := !(o.getD 0 == 0)

/-- Python `a or b` on two optional strings (used for
`info.get('uploader') or info.get('channel')`). -/
def pyOrStr (a b : Option String) : Option String :=
  if optTruthyStr a then a else b

/-- Python `int()` truncation (toward zero) of a rational. -/
def pyTrunc (q : Rat) : Int := q.num.tdiv (q.den : Int)

/-- Stable insertion of `x` into `l`: `x` is placed before the first
element whose key is not strictly below `key x`, so elements with equal
keys keep their original relative order. -/
def insertByKey {α K : Type} [LinearOrder K] (key : α → K) (x : α) :
    List α → List α
  | [] => [x]
  | y :: ys => if key y < key x then y :: insertByKey key x ys else x :: y :: ys

/-- Stable sort (ascending) by a key into a linear order; denotes the
same function as Python's stable `sort(key=...)`. -/
def sortByKey {α K : Type} [LinearOrder K] (key : α → K) : List α → List α
  | [] => []
  | x :: xs => insertByKey key x (sortByKey key xs)

/-! Source: src/ytdlp_handler.py, helper functions (lines 16-27). -/

/-- `sanitize_filename` (ytdlp_handler.py:16-18): characters removed by
`re.sub(r'[<>:"/\\|?*]', '', filename)`. -/
def badFilenameChars : List Char := ['<', '>', ':', '"', '/', '\\', '|', '?', '*']

/-- `sanitize_filename(filename)`: drop every character of the class. -/
def sanitize_filename (filename : String) : String :=
  ⟨filename.data.filter (fun c => !(badFilenameChars.contains c))⟩

/-- `get_friendly_error(error_msg)` (ytdlp_handler.py:21-27). -/
def get_friendly_error (error_msg : String) : String :=
  if strIn "Sign in" error_msg || strIn "bot" error_msg then
    "YouTube requires authentication. Please check cookie file."
  else if strIn "format" (strLower error_msg) then
    "Requested format not available. Trying alternative..."
  else error_msg

/-- `DownloadStatus` (ytdlp_handler.py:31-38). -/
inductive DownloadStatus where
  | PENDING
  | EXTRACTING
  | DOWNLOADING
  | PROCESSING
  | COMPLETED
  | FAILED
  | CANCELLED
deriving DecidableEq, Repr

/-- `VideoFormat` dataclass (ytdlp_handler.py:41-55).  `resolution` is
the `"{width}x{height}"` display string modelled structurally as the
pair (width if truthy, height); the source's `get_resolution_height`
parses the height component back out of the string. -/
structure VideoFormat where
  format_id : String
  ext : String
  resolution : Option (Option Int × Int) := none
  filesize : Option Int := none
  filesize_approx : Option Int := none
  vcodec : Option String := none
  acodec : Option String := none
  fps : Option Rat := none
  tbr : Option Rat := none
  quality_label : String := ""
  is_audio_only : Bool := false
  is_video_only : Bool := false
deriving DecidableEq, Repr

/-- `VideoInfo` dataclass (ytdlp_handler.py:70-88).  `subtitles` is a
dict passed through untouched; it is modelled by its list of keys. -/
structure VideoInfo where
  id : String
  title : String
  url : String
  thumbnail : Option String := none
  duration : Option Int := none
  uploader : Option String := none
  uploader_url : Option String := none
  view_count : Option Int := none
  like_count : Option Int := none
  description : Option String := none
  upload_date : Option String := none
  extractor : Option String := none
  webpage_url : Option String := none
  formats : List VideoFormat := []
  subtitles : List String := []
  is_live : Bool := false
deriving DecidableEq, Repr

/-- `DownloadTask` dataclass (ytdlp_handler.py:116-129). -/
structure DownloadTask where
  task_id : String
  url : String
  status : DownloadStatus := DownloadStatus.PENDING
  progress : Rat := 0
  speed : Option String := none
  eta : Option String := none
  filename : Option String := none
  filepath : Option String := none
  filesize : Option Int := none
  error : Option String := none
  video_info : Option VideoInfo := none
deriving DecidableEq, Repr

/-! Source: src/ytdlp_handler.py, `_parse_video_info` (lines 322-463). -/

/-- One raw entry of `info['formats']` as read by `_parse_video_info`:
exactly the keys the source accesses.

Most keys behave identically when absent and when present with value
`None` (they are only tested for truthiness or defaulted to a falsy
value), so they are modelled with a single `Option`.  The codec keys
are the exception: `fmt.get('vcodec', 'none')` yields the *string*
`'none'` only when the key is absent, while a key present with an
explicit `None` yields `None`, which then fails every `== 'none'`
comparison.  `vcodec`/`acodec` therefore carry two `Option` layers:
`none` is an absent key, `some none` a key present with value `None`,
and `some (some s)` a key present with string `s`. -/
structure RawFormat where
  format_id : Option String := none
  format_note : Option String := none
  ext : Option String := none
  vcodec : Option (Option String) := none
  acodec : Option (Option String) := none
  height : Option Int := none
  width : Option Int := none
  abr : Option Rat := none
  fps : Option Rat := none
  tbr : Option Rat := none
  filesize : Option Int := none
  filesize_approx : Option Int := none
deriving DecidableEq, Repr

/-- One raw entry of `info['thumbnails']`: the keys the source accesses. -/
structure RawThumb where
  url : Option String := none
  preference : Option Int := none
  width : Option Int := none
deriving DecidableEq, Repr

/-- The raw yt-dlp info dict as read by `_parse_video_info`: exactly the
keys the source accesses (`subtitles` modelled by its key list). -/
structure RawInfo where
  id : Option String := none
  title : Option String := none
  thumbnail : Option String := none
  thumbnails : List RawThumb := []
  duration : Option Int := none
  uploader : Option String := none
  channel : Option String := none
  uploader_url : Option String := none
  channel_url : Option String := none
  view_count : Option Int := none
  like_count : Option Int := none
  description : Option String := none
  upload_date : Option String := none
  extractor : Option String := none
  webpage_url : Option String := none
  formats : List RawFormat := []
  subtitles : List String := []
  is_live : Option Bool := none
deriving DecidableEq, Repr

/-- Denylist of non-media containers skipped by the format loop
(ytdlp_handler.py:343). -/
def nonMediaExts : List String := ["mhtml", "html", "json", "none"]

/-- `fmt.get('vcodec', 'none')` / `fmt.get('acodec', 'none')`
(ytdlp_handler.py:346-347): the string default `'none'` is produced
only for an absent key; a present value — including an explicit `None`,
modelled as `none` in the result — is returned unchanged. -/
def getCodecField (field : Option (Option String)) : Option String :=
  match field with
  | none => some "none"
  | some v => v

/-- Python `v == 'none'` on a `.get` result that may be `None`: only
the literal string `'none'` compares equal; `None == 'none'` is false. -/
def codecIsNone (v : Option String) : Bool := v == some "none"

/-- `is_audio_only` derivation (ytdlp_handler.py:354):
`vcodec == 'none' and acodec != 'none'`. -/
def rawIsAudioOnly (fmt : RawFormat) : Bool :=
  codecIsNone (getCodecField fmt.vcodec) && !(codecIsNone (getCodecField fmt.acodec))

/-- `is_video_only` derivation (ytdlp_handler.py:353):
`vcodec != 'none' and acodec == 'none'`. -/
def rawIsVideoOnly (fmt : RawFormat) : Bool :=
  !(codecIsNone (getCodecField fmt.vcodec)) && codecIsNone (getCodecField fmt.acodec)

/-- The low-resolution skip (ytdlp_handler.py:357-361): a truthy height
below 144 on a non-audio-only entry. -/
def heightSkip (fmt : RawFormat) : Bool :=
  optTruthyInt fmt.height && !(rawIsAudioOnly fmt) && decide (fmt.height.getD 0 < 144)

/-- Conjunction of the five `continue` guards of the format loop
(ytdlp_handler.py:331-361), in source order: present format id, no
"storyboard" note, no non-media container, not both codecs equal to the
literal string `'none'`, and no sub-144p non-audio height.  The loop's
successive `continue`s are equivalent to keeping exactly the entries
satisfying all five.  Note the codec guard does not fire for codec keys
present with explicit `None` values, since `None == 'none'` is false. -/
def keepFormat (fmt : RawFormat) : Bool :=
  optTruthyStr fmt.format_id
  && !(strIn "storyboard" (strLower (fmt.format_note.getD "")))
  && !(nonMediaExts.contains (strLower (fmt.ext.getD "")))
  && !(codecIsNone (getCodecField fmt.vcodec) && codecIsNone (getCodecField fmt.acodec))
  && !(heightSkip fmt)

/-- Quality-label thresholds for a truthy height (ytdlp_handler.py:364-380). -/
def heightLabel (h : Int) : String :=
  if h ≥ 2160 then "4K"
  else if h ≥ 1440 then "2K"
  else if h ≥ 1080 then "1080p HD"
  else if h ≥ 720 then "720p HD"
  else if h ≥ 480 then "480p"
  else if h ≥ 360 then "360p"
  else if h ≥ 240 then "240p"
  else toString h ++ "p"

/-- `quality_label` derivation (ytdlp_handler.py:363-385): height
thresholds, else `"Audio {int(abr)}kbps"`/`"Audio"` for audio-only,
else the raw format note defaulting to `"Unknown"`. -/
def qualityLabel (fmt : RawFormat) : String :=
  if optTruthyInt fmt.height then heightLabel (fmt.height.getD 0)
  else if rawIsAudioOnly fmt then
    (if fmt.abr.getD 0 ≠ 0 then "Audio " ++ toString (pyTrunc (fmt.abr.getD 0)) ++ "kbps"
     else "Audio")
  else fmt.format_note.getD "Unknown"

/-- Construction of the `VideoFormat` appended for a surviving raw entry
(ytdlp_handler.py:387-408).  The resolution string
`f"{int(width) if width else '?'}x{int(height_val)}"` is modelled
structurally as `(width if truthy, height)`. -/
def mkVideoFormat (fmt : RawFormat) : VideoFormat :=
  { format_id := fmt.format_id.getD ""
    ext := fmt.ext.getD "mp4"
    resolution :=
      if optTruthyInt fmt.height then
        some ((if optTruthyInt fmt.width then fmt.width else none), fmt.height.getD 0)
      else none
    filesize := fmt.filesize
    filesize_approx := fmt.filesize_approx
    vcodec := if codecIsNone (getCodecField fmt.vcodec) then none else getCodecField fmt.vcodec
    acodec := if codecIsNone (getCodecField fmt.acodec) then none else getCodecField fmt.acodec
    fps := fmt.fps
    tbr := fmt.tbr
    quality_label := qualityLabel fmt
    is_audio_only := rawIsAudioOnly fmt
    is_video_only := rawIsVideoOnly fmt }

/-- One iteration of the format loop: `none` when a `continue` guard
fires, otherwise the constructed `VideoFormat`. -/
def parseFormat (fmt : RawFormat) : Option VideoFormat :=
  if keepFormat fmt then some (mkVideoFormat fmt) else none

/-- `get_resolution_height(f)` (ytdlp_handler.py:411-418): height parsed
back out of the resolution string, 0 when absent or unparsable. -/
def get_resolution_height (f : VideoFormat) : Int :=
  match f.resolution with
  | some p => p.2
  | none => 0

/-- The composite sort key of `formats.sort` (ytdlp_handler.py:420-424)
as a plain triple: `(f.is_audio_only, -height, -(f.tbr or 0))`. -/
def fmtKeyP (f : VideoFormat) : Bool × Int × Rat :=
  (f.is_audio_only, -(get_resolution_height f), -(f.tbr.getD 0))

/-- The same key in the lexicographic order Python gives tuples. -/
def fmtKey (f : VideoFormat) : Bool ×ₗ Int ×ₗ Rat :=
  toLex ((fmtKeyP f).1, toLex (fmtKeyP f).2)

/-- `formats.sort(key=...)` (ytdlp_handler.py:420-424): stable ascending
sort by the composite key. -/
def sortFormats (l : List VideoFormat) : List VideoFormat :=
  sortByKey fmtKey l

/-- The scalar thumbnail sort key (ytdlp_handler.py:437):
`t.get('preference', 0) or t.get('width', 0) or 0`. -/
def thumbKey (t : RawThumb) : Int :=
  if optTruthyInt t.preference then t.preference.getD 0
  else if optTruthyInt t.width then t.width.getD 0
  else 0

/-- Thumbnail selection (ytdlp_handler.py:430-444): among thumbnails
with a truthy url, stable-sort descending by `thumbKey` and take the
first; otherwise fall back to `info.get('thumbnail')`.  (A selected
candidate has a truthy url, so the `if not thumbnail` fallback fires
exactly when there is no candidate.) -/
def pickThumbnail (thumbnails : List RawThumb) (dflt : Option String) : Option String :=
  match (sortByKey (fun t => -(thumbKey t)) (thumbnails.filter (fun t => optTruthyStr t.url))).head? with
  | some t => t.url
  | none => dflt

/-- `_parse_video_info(info, original_url)` (ytdlp_handler.py:322-463). -/
def parse_video_info (info : RawInfo) (original_url : String) : VideoInfo :=
  { id := info.id.getD ""
    title := info.title.getD "Unknown Title"
    url := original_url
    thumbnail := pickThumbnail info.thumbnails info.thumbnail
    duration := info.duration
    uploader := pyOrStr info.uploader info.channel
    uploader_url := pyOrStr info.uploader_url info.channel_url
    view_count := info.view_count
    like_count := info.like_count
    description := info.description
    upload_date := info.upload_date
    extractor := info.extractor
    webpage_url := some (info.webpage_url.getD original_url)
    formats := sortFormats (info.formats.filterMap parseFormat)
    subtitles := info.subtitles
    is_live := info.is_live.getD false }

/-! Source: src/ytdlp_handler.py, `extract_info` and
`_get_extraction_strategies` (lines 184-320).  The per-strategy option
dictionaries are opaque engine configuration; strategies are modelled by
their names, in source order. -/

/-- `_get_extraction_strategies(url)` (ytdlp_handler.py:232-320):
classify the lowercased url by substring and return the ordered
strategy list for that platform. -/
def get_extraction_strategies (url : String) : List String :=
  let u := strLower url
  if strIn "youtube.com" u || strIn "youtu.be" u then
    ["YouTube Web Client", "YouTube Android Client", "YouTube iOS Client",
     "YouTube TV Embedded", "YouTube Default"]
  else if strIn "instagram.com" u || strIn "instagr.am" u then
    ["Instagram GraphQL", "Instagram Default", "Instagram with Cookies"]
  else if strIn "tiktok.com" u then
    ["TikTok API", "TikTok Default"]
  else if strIn "twitter.com" u || strIn "x.com" u then
    ["Twitter Legacy API", "Twitter Default"]
  else
    ["Default", "No Browser Headers", "With Geo Bypass"]

/-- Outcome of one engine call `ydl.extract_info(url, download=False)`
under one strategy: an exception carrying a message, or a returned info
dict (`none` models a falsy — absent or empty — result). -/
inductive EngineResult where
  | ok (info : Option RawInfo)
  | err (msg : String)
deriving DecidableEq, Repr

/-- A strategy attempt that does not produce usable metadata: either the
engine raised (its message is recorded in `last_error`) or it returned a
falsy info dict (recorded nowhere). -/
def isStrategyFailure (r : EngineResult) : Bool :=
  match r with
  | EngineResult.ok (some _) => false
  | EngineResult.ok none => true
  | EngineResult.err _ => true

/-- The `last_error` value accumulated by the strategy loop over a list
of attempted strategies (ytdlp_handler.py:191-214). -/
def lastErrorIn (engine : String → EngineResult) : List String → Option String → Option String
  | [], acc => acc
  | s :: rest, acc =>
    match engine s with
    | EngineResult.err m => lastErrorIn engine rest (some m)
    | EngineResult.ok _ => lastErrorIn engine rest acc

/-- The strategy loop of `extract_info` (ytdlp_handler.py:191-230),
instrumented with the list of strategies actually attempted (first
component).  A truthy info returns the parsed `VideoInfo` immediately;
an exception records `last_error` and continues; when the loop is
exhausted the function raises
`get_friendly_error(last_error or "All extraction methods failed")`.
The intervening fallback-downloaders block (lines 216-227) cannot alter
this outcome: every path through it either falls through or raises
inside its own `try`, whose `except` swallows the exception, so control
always reaches the final `raise`. -/
def extractLoop (engine : String → EngineResult) (url : String) :
    List String → Option String → List String × Except String VideoInfo
  | [], lastError =>
    ([], Except.error (get_friendly_error (lastError.getD "All extraction methods failed")))
  | s :: rest, lastError =>
    match engine s with
    | EngineResult.ok (some info) => ([s], Except.ok (parse_video_info info url))
    | EngineResult.ok none =>
      let r := extractLoop engine url rest lastError
      (s :: r.1, r.2)
    | EngineResult.err m =>
      let r := extractLoop engine url rest (some m)
      (s :: r.1, r.2)

/-- `extract_info(url)` (ytdlp_handler.py:184-230) against an injected
engine stub: run the strategy loop over the selector's list. -/
def extract_info (engine : String → EngineResult) (url : String) :
    List String × Except String VideoInfo :=
  extractLoop engine url (get_extraction_strategies url) none

/-! Source: src/ytdlp_handler.py, `download_video` (lines 465-617) and
`cancel_task` (lines 623-629). -/

/-- The `DownloadTask` created at the top of `download_video`
(ytdlp_handler.py:479): status `EXTRACTING`, everything else default. -/
def newDownloadTask (task_id url : String) : DownloadTask :=
  { task_id := task_id, url := url, status := DownloadStatus.EXTRACTING }

/-- One progress event delivered to `progress_hook`
(ytdlp_handler.py:485-518): the keys the hook reads.  `speed`/`eta` are
modelled as the already-formatted strings (the hook's numeric
pretty-printing branch only reformats a numeric value). -/
structure ProgressEvent where
  status : String
  downloaded_bytes : Option Int := none
  total_bytes : Option Int := none
  total_bytes_estimate : Option Int := none
  speed : Option String := none
  eta : Option String := none
  filename : Option String := none
deriving DecidableEq, Repr

/-- Final path component (`os.path.basename` / `split(os.sep)[-1]` with
the POSIX separator). -/
def basename (p : String) : String := ((p.splitOn "/").getLast?).getD ""

/-- `progress_hook(d)` (ytdlp_handler.py:485-518) as a state update of
the task.  Note both branches assign `task.status` unconditionally. -/
def progress_hook (d : ProgressEvent) (task : DownloadTask) : DownloadTask :=
  if d.status == "downloading" then
    let downloaded : Int := d.downloaded_bytes.getD 0
    let total : Int :=
      match d.total_bytes with
      | some t => if t ≠ 0 then t else d.total_bytes_estimate.getD 0
      | none => d.total_bytes_estimate.getD 0
    { task with
      status := DownloadStatus.DOWNLOADING
      progress := if total > 0 then (downloaded : Rat) / (total : Rat) * 100 else task.progress
      speed := d.speed
      eta := d.eta
      filename := some (basename (d.filename.getD ""))
      filepath := d.filename }
  else if d.status == "finished" then
    { task with
      status := DownloadStatus.PROCESSING
      progress := 100
      filepath := d.filename
      filename := some (basename (d.filename.getD "")) }
  else task

/-- The format-selector resolution of `download_video`
(ytdlp_handler.py:520-551).  `task` is the value of
`self.active_tasks.get(task_id)` read at line 529 — the task created at
line 479, whose `video_info` field is only assigned after the download
completes (line 593). -/
def resolveFormatStr (url : String) (format_id : String) (audio_only : Bool)
    (task : DownloadTask) : String :=
  let is_instagram := strIn "instagram.com" (strLower url) || strIn "instagr.am" (strLower url)
  if audio_only then
    "bestaudio[ext=m4a]/bestaudio[ext=mp3]/bestaudio/best"
  else if format_id ≠ "" ∧ format_id ≠ "best" then
    let is_video_only : Bool :=
      match task.video_info with
      | some vi =>
        match vi.formats.find? (fun f => f.format_id == format_id) with
        | some f => f.is_video_only
        | none => false
      | none => false
    if is_video_only then
      format_id ++ "+bestaudio[ext=m4a]/" ++ format_id ++ "+bestaudio/" ++ format_id
    else
      format_id ++ "/best[ext=mp4][vcodec^=avc1]/best[ext=mp4]/best"
  else
    if is_instagram then
      "best[ext=mp4]/bestvideo[ext=mp4]+bestaudio[ext=m4a]/bestvideo+bestaudio/best"
    else
      "bestvideo[ext=mp4][vcodec^=avc1]+bestaudio[ext=m4a]/bestvideo[vcodec^=avc1]+bestaudio/best[ext=mp4][vcodec^=avc1]/best[ext=mp4]/best"

/-- The task update performed after the engine call returns
(ytdlp_handler.py:587-610): on success status is set to `COMPLETED` and
the parsed info attached; on an exception status is set to `FAILED` and
a friendly error stored.  Both assignments are unconditional — they do
not consult the current status.  (The on-disk output-file probing of
lines 596-606 touches only `filepath`/`filename`/`filesize`.) -/
def downloadResultUpdate (task : DownloadTask) (result : Except String RawInfo)
    (url : String) : DownloadTask :=
  match result with
  | Except.ok info =>
    { task with
      status := DownloadStatus.COMPLETED
      video_info := some (parse_video_info info url) }
  | Except.error e =>
    { task with
      status := DownloadStatus.FAILED
      error := some (get_friendly_error e) }

/-- Replace the status of the task stored under `task_id` (the in-place
mutation `task.status = CANCELLED` seen through the registry). -/
def setTaskStatus (tasks : List (String × DownloadTask)) (task_id : String)
    (st : DownloadStatus) : List (String × DownloadTask) :=
  tasks.map (fun p => if p.1 == task_id then (p.1, { p.2 with status := st }) else p)

/-- `cancel_task(task_id)` (ytdlp_handler.py:623-629) over the
`active_tasks` registry: returns the boolean result and the registry
after the call.  The guard excludes only `COMPLETED` and `FAILED`. -/
def cancel_task (tasks : List (String × DownloadTask)) (task_id : String) :
    Bool × List (String × DownloadTask) :=
  match tasks.lookup task_id with
  | some task =>
    if task.status ≠ DownloadStatus.COMPLETED ∧ task.status ≠ DownloadStatus.FAILED then
      (true, setTaskStatus tasks task_id DownloadStatus.CANCELLED)
    else (false, tasks)
  | none => (false, tasks)

/-! Source: src/server.py `cleanup_old_cache` (lines 115-139) and
src/ytdlp_handler.py `cleanup_old_files` (lines 745-760).  Filesystem
state is the list of regular files in the cache directory with their
modification time (integer seconds) and size; a removal attempt either
succeeds or raises, as dictated by the injected `fails` oracle. -/

/-- One cache file as listed by `os.stat`: path, `st_mtime`, `st_size`. -/
structure CacheFile where
  path : String
  mtime : Int
  size : Int
deriving DecidableEq, Repr

/-- The removal walk of `cleanup_old_cache` (server.py:131-137) over the
mtime-sorted list, threading the running total size.  A file is removed
when `age_hours > max_age_hours or total_size > max_size_mb*1024*1024`;
`(now - mtime) / 3600 > max_age_hours` is written cross-multiplied as
`now - mtime > max_age_hours * 3600` (equivalent over the reals).
A raising `os.remove` propagates to the function-level `except`
(server.py:138), which swallows it but abandons the rest of the walk:
the second component is false when the walk was aborted that way. -/
def cacheEvictWalk (now max_age_hours maxBytes : Int) (fails : String → Bool) :
    List CacheFile → Int → List String × Bool
  | [], _ => ([], true)
  | f :: rest, total =>
    if now - f.mtime > max_age_hours * 3600 ∨ total > maxBytes then
      if fails f.path then ([], false)
      else
        let r := cacheEvictWalk now max_age_hours maxBytes fails rest (total - f.size)
        (f.path :: r.1, r.2)
    else cacheEvictWalk now max_age_hours maxBytes fails rest total

/-- The mtime-ascending listing of `cleanup_old_cache` (server.py:128). -/
def sortedCache (files : List CacheFile) : List CacheFile :=
  sortByKey (fun f => f.mtime) files

/-- The initial `total_size` of `cleanup_old_cache` (server.py:118-125):
sum of all listed file sizes. -/
def cacheTotal (files : List CacheFile) : Int :=
  (files.map (fun f => f.size)).sum

/-- `cleanup_old_cache(max_age_hours, max_size_mb)` (server.py:115-139):
list files with mtime and size, sort ascending by mtime, and walk the
list removing eligible files; returns the removed paths and whether the
scan ran to completion (false when aborted by a raising removal). -/
def cleanup_old_cache (now max_age_hours max_size_mb : Int) (fails : String → Bool)
    (files : List CacheFile) : List String × Bool :=
  cacheEvictWalk now max_age_hours (max_size_mb * 1024 * 1024) fails
    (sortedCache files) (cacheTotal files)

/-- The decision bit for each file of the walk, in order, with the same
running total; used to state which files `cleanup_old_cache` removes. -/
def evictDecisions (now max_age_hours maxBytes : Int) :
    List CacheFile → Int → List Bool
  | [], _ => []
  | f :: rest, total =>
    let cond := decide (now - f.mtime > max_age_hours * 3600 ∨ total > maxBytes)
    cond :: evictDecisions now max_age_hours maxBytes rest (if cond then total - f.size else total)

/-- Total size of the files marked removed by a decision list. -/
def removedBytes : List CacheFile → List Bool → Int
  | f :: fs, b :: bs => (if b then f.size else 0) + removedBytes fs bs
  | _, _ => 0

/-- Paths of the files marked removed by a decision list. -/
def selectPaths : List CacheFile → List Bool → List String
  | f :: fs, b :: bs => if b then f.path :: selectPaths fs bs else selectPaths fs bs
  | _, _ => []

/-- `cleanup_old_files(max_age_hours)` (ytdlp_handler.py:745-760):
remove every listed file older than `max_age_hours * 3600` seconds,
swallowing a failure of each individual removal (`try/except: pass` per
file); returns the successfully removed paths. -/
def cleanup_old_files (now max_age_hours : Int) (fails : String → Bool)
    (files : List CacheFile) : List String :=
  files.filterMap (fun f =>
    if now - f.mtime > max_age_hours * 3600 then
      if fails f.path then none else some f.path
    else none)

/-! Concrete sample inputs used to instantiate theorems. -/

/-- A parsed video-only format with id "137" (as yt-dlp labels 1080p
DASH video), used to exercise the merge branch of the format resolver. -/
def fmt137 : VideoFormat :=
  { format_id := "137", ext := "mp4", resolution := some (some 1920, 1080),
    vcodec := some "avc1.64001f", tbr := some 4500, quality_label := "1080p HD",
    is_video_only := true }

/-- A `VideoInfo` whose format list contains only `fmt137`. -/
def videoInfo137 : VideoInfo :=
  { id := "abc", title := "v", url := "u", formats := [fmt137] }

/-- The raw yt-dlp entry that parses to `fmt137`. -/
def raw137 : RawFormat :=
  { format_id := some "137", ext := some "mp4", vcodec := some (some "avc1.64001f"),
    height := some 1080, width := some 1920, tbr := some 4500 }

/-- A raw info dict whose format list contains only `raw137`. -/
def rawInfo137 : RawInfo := { formats := [raw137] }

/-- A raw entry whose codec keys are present with explicit `None`
values (`{'format_id': 'x', 'ext': 'mp4', 'vcodec': None,
'acodec': None}`): `fmt.get('vcodec', 'none')` then yields `None`,
which is not equal to the string `'none'`, so the line-350 guard does
not skip it. -/
def rawNullCodecs : RawFormat :=
  { format_id := some "x", ext := some "mp4", vcodec := some none, acodec := some none }

/-- A raw info dict whose format list contains only `rawNullCodecs`. -/
def rawInfoNullCodecs : RawInfo := { formats := [rawNullCodecs] }

/-- Thumbnail with an explicit low preference and small width. -/
def thumbA : RawThumb := { url := some "a", preference := some 1, width := some 100 }

/-- Thumbnail with no preference and a large width. -/
def thumbB : RawThumb := { url := some "b", width := some 5000 }

/-- A raw info dict carrying the two thumbnails above. -/
def thumbsInfo : RawInfo := { thumbnails := [thumbA, thumbB] }

/-- The cache directory of the spec's eviction scenario: a 40 MiB file
2 hours old and a 600 MiB file 30 hours old, with "now" at 108000 s. -/
def cacheScenario : List CacheFile :=
  [ { path := "abc123.m4a", mtime := 100800, size := 41943040 },
    { path := "def456.mp3", mtime := 0, size := 629145600 } ]

/-- A two-file cache state on which removing the older file fails. -/
def cacheTwoOld : List CacheFile :=
  [ { path := "f1", mtime := 0, size := 1 }, { path := "f2", mtime := 1, size := 1 } ]

/-- An engine stub that raises on the first generic strategy and
returns truthy metadata on any other strategy. -/
def engineStubA : String → EngineResult := fun s =>
  if s == "Default" then EngineResult.err "boom" else EngineResult.ok (some {})

/-! Generic lemmas about the stable key sort. -/

theorem mem_insertByKey {α K : Type} [LinearOrder K] (key : α → K) (x : α)
    (l : List α) (a : α) : a ∈ insertByKey key x l ↔ a = x ∨ a ∈ l := by
  induction l with
  | nil => simp [insertByKey]
  | cons y ys ih =>
    by_cases h : key y < key x
    · simp only [insertByKey, if_pos h, List.mem_cons, ih]
      tauto
    · simp only [insertByKey, if_neg h, List.mem_cons]

theorem mem_sortByKey {α K : Type} [LinearOrder K] (key : α → K)
    (l : List α) (a : α) : a ∈ sortByKey key l ↔ a ∈ l := by
  induction l with
  | nil => simp [sortByKey]
  | cons x xs ih =>
    simp only [sortByKey, mem_insertByKey, ih, List.mem_cons]

theorem insertByKey_ne_nil {α K : Type} [LinearOrder K] (key : α → K) (x : α)
    (l : List α) : insertByKey key x l ≠ [] := by
  cases l with
  | nil => simp [insertByKey]
  | cons y ys =>
    by_cases h : key y < key x
    · simp [insertByKey, if_pos h]
    · simp [insertByKey, if_neg h]

theorem pairwise_insertByKey {α K : Type} [LinearOrder K] (key : α → K) (x : α)
    (l : List α) (h : l.Pairwise (fun a b => key a ≤ key b)) :
    (insertByKey key x l).Pairwise (fun a b => key a ≤ key b) := by
  induction l with
  | nil => simp [insertByKey]
  | cons y ys ih =>
    rcases List.pairwise_cons.mp h with ⟨hy, hys⟩
    by_cases hlt : key y < key x
    · rw [insertByKey, if_pos hlt]
      refine List.pairwise_cons.mpr ⟨?_, ih hys⟩
      intro z hz
      rcases (mem_insertByKey key x ys z).mp hz with rfl | hz2
      · exact le_of_lt hlt
      · exact hy z hz2
    · rw [insertByKey, if_neg hlt]
      refine List.pairwise_cons.mpr ⟨?_, h⟩
      intro z hz
      rcases List.mem_cons.mp hz with rfl | hz2
      · exact le_of_not_lt hlt
      · exact le_trans (le_of_not_lt hlt) (hy z hz2)

theorem pairwise_sortByKey {α K : Type} [LinearOrder K] (key : α → K)
    (l : List α) : (sortByKey key l).Pairwise (fun a b => key a ≤ key b) := by
  induction l with
  | nil => simp [sortByKey]
  | cons x xs ih => exact pairwise_insertByKey key x _ ih

theorem filter_insertByKey {α K : Type} [LinearOrder K] (key : α → K)
    (p : α → Bool) (hp : ∀ a b, p a = true → p b = true → key a = key b)
    (x : α) (l : List α) :
    (insertByKey key x l).filter p
      = if p x then x :: l.filter p else l.filter p := by
  induction l with
  | nil =>
    by_cases hx : p x <;> simp [insertByKey, List.filter, hx]
  | cons y ys ih =>
    by_cases hlt : key y < key x
    · rw [insertByKey, if_pos hlt]
      by_cases hy : p y
      · have hx : p x = false := by
          cases hxv : p x with
          | false => rfl
          | true => exact absurd (hp x y hxv hy) (ne_of_gt hlt)
        simp [List.filter_cons, hy, hx, ih]
      · simp only [List.filter_cons, Bool.not_eq_true] at hy
        simp [List.filter_cons, hy, ih]
    · rw [insertByKey, if_neg hlt]
      by_cases hx : p x <;> simp [List.filter_cons, hx]

theorem filter_sortByKey {α K : Type} [LinearOrder K] (key : α → K)
    (p : α → Bool) (hp : ∀ a b, p a = true → p b = true → key a = key b)
    (l : List α) : (sortByKey key l).filter p = l.filter p := by
  induction l with
  | nil => simp [sortByKey]
  | cons x xs ih =>
    rw [sortByKey, filter_insertByKey key p hp, ih, List.filter_cons]

theorem sortByKey_head_min {α K : Type} [LinearOrder K] (key : α → K)
    (l : List α) (x : α) (rest : List α) (h : sortByKey key l = x :: rest)
    (a : α) (ha : a ∈ l) : key x ≤ key a := by
  have hmem : a ∈ x :: rest := by
    rw [← h]
    exact (mem_sortByKey key l a).mpr ha
  rcases List.mem_cons.mp hmem with rfl | h2
  · exact le_refl _
  · have hp := pairwise_sortByKey key l
    rw [h] at hp
    exact (List.pairwise_cons.mp hp).1 a h2

theorem sortByKey_eq_nil_iff {α K : Type} [LinearOrder K] (key : α → K)
    (l : List α) : sortByKey key l = [] ↔ l = [] := by
  cases l with
  | nil => simp [sortByKey]
  | cons x xs =>
    simp only [sortByKey]
    exact ⟨fun h => absurd h (insertByKey_ne_nil key x _), fun h => by cases h⟩

/-! Claim C10: sanitize_filename. -/

/-- Claim C10: `sanitize_filename` is idempotent, and its output never
contains any of the characters removed by the regular expression class
`[<>:"/\\|?*]`. -/
theorem sanitize_filename_idempotent_and_clean (s : String) :
    sanitize_filename (sanitize_filename s) = sanitize_filename s
    ∧ (sanitize_filename s).data.all (fun c => !(badFilenameChars.contains c)) = true := by
  constructor
  · simp only [sanitize_filename, List.filter_filter]
    congr 1
    apply List.filter_congr
    intro c _
    rw [Bool.and_self]
  · rw [List.all_eq_true]
    intro c hc
    exact (List.mem_filter.mp hc).2

/-! Claim C2: cancel_task. -/

theorem lookup_setTaskStatus (tasks : List (String × DownloadTask))
    (task_id : String) (st : DownloadStatus) :
    (setTaskStatus tasks task_id st).lookup task_id
      = (tasks.lookup task_id).map (fun t => { t with status := st }) := by
  induction tasks with
  | nil => simp [setTaskStatus]
  | cons p ps ih =>
    obtain ⟨k, v⟩ := p
    have hmap : setTaskStatus ((k, v) :: ps) task_id st
        = (if (k == task_id) = true then (k, { v with status := st }) else (k, v))
            :: setTaskStatus ps task_id st := rfl
    rw [hmap]
    by_cases hb : (k == task_id) = true
    · obtain rfl : k = task_id := eq_of_beq hb
      rw [if_pos hb]
      simp [List.lookup]
    · rw [if_neg hb]
      have hk : ¬ k = task_id := fun h => hb (by simp [h])
      have h2 : (task_id == k) = false := beq_eq_false_iff_ne.mpr (fun h => hk h.symm)
      simp [List.lookup, h2, ih]

/-- Claim C2 counterexample: `cancel_task` on a task whose status is
already `CANCELLED` — a terminal state, so per the claim the call must
return false — returns true, because the source guard
(ytdlp_handler.py:626) only excludes `COMPLETED` and `FAILED`. -/
theorem cancel_task_true_on_cancelled_task :
    (cancel_task
      [("t", { newDownloadTask "t" "u" with status := DownloadStatus.CANCELLED })] "t").1 = true
    ∧ ¬(({ newDownloadTask "t" "u" with status := DownloadStatus.CANCELLED } : DownloadTask).status
          ≠ DownloadStatus.COMPLETED
        ∧ ({ newDownloadTask "t" "u" with status := DownloadStatus.CANCELLED } : DownloadTask).status
          ≠ DownloadStatus.FAILED
        ∧ ({ newDownloadTask "t" "u" with status := DownloadStatus.CANCELLED } : DownloadTask).status
          ≠ DownloadStatus.CANCELLED) := by
  exact ⟨by decide, by decide⟩

/-- Claim C2 (amended): `cancel_task` returns true iff the task exists
and its status is neither `COMPLETED` nor `FAILED` (so a task already
`CANCELLED` returns true again); on a `COMPLETED` task it returns false
and leaves the registry unchanged; and on success the stored status
becomes `CANCELLED`. -/
theorem cancel_task_characterization (tasks : List (String × DownloadTask))
    (task_id : String) :
    ((cancel_task tasks task_id).1 = true ↔
      ∃ t, tasks.lookup task_id = some t
        ∧ t.status ≠ DownloadStatus.COMPLETED ∧ t.status ≠ DownloadStatus.FAILED)
    ∧ (∀ t, tasks.lookup task_id = some t → t.status = DownloadStatus.COMPLETED →
        cancel_task tasks task_id = (false, tasks))
    ∧ (∀ t, tasks.lookup task_id = some t →
        t.status ≠ DownloadStatus.COMPLETED → t.status ≠ DownloadStatus.FAILED →
        (cancel_task tasks task_id).2.lookup task_id
          = some { t with status := DownloadStatus.CANCELLED }) := by
  refine ⟨?_, ?_, ?_⟩
  · cases hl : tasks.lookup task_id with
    | none => simp [cancel_task, hl]
    | some t =>
      by_cases hc : t.status ≠ DownloadStatus.COMPLETED ∧ t.status ≠ DownloadStatus.FAILED
      · constructor
        · intro _
          exact ⟨t, rfl, hc.1, hc.2⟩
        · intro _
          simp [cancel_task, hl, if_pos hc]
      · constructor
        · intro htrue
          exfalso
          simp [cancel_task, hl, if_neg hc] at htrue
        · rintro ⟨t2, ht2, hh1, hh2⟩
          cases Option.some.inj ht2
          exact absurd ⟨hh1, hh2⟩ hc
  · intro t hl hc
    have hnc : ¬(t.status ≠ DownloadStatus.COMPLETED ∧ t.status ≠ DownloadStatus.FAILED) := by
      intro h; exact h.1 hc
    simp [cancel_task, hl, if_neg hnc]
  · intro t hl h1 h2
    have hstep : (cancel_task tasks task_id).2 = setTaskStatus tasks task_id DownloadStatus.CANCELLED := by
      simp [cancel_task, hl, if_pos (And.intro h1 h2)]
    rw [hstep, lookup_setTaskStatus, hl]
    rfl

/-- Claim C2 witness: cancelling a `COMPLETED` task returns false and
leaves the registry (hence the stored status) unchanged. -/
theorem cancel_task_characterization_witness :
    cancel_task
        [("c", { newDownloadTask "c" "u" with status := DownloadStatus.COMPLETED })] "c"
      = (false, [("c", { newDownloadTask "c" "u" with status := DownloadStatus.COMPLETED })]) :=
  (cancel_task_characterization
    [("c", { newDownloadTask "c" "u" with status := DownloadStatus.COMPLETED })] "c").2.1
    { newDownloadTask "c" "u" with status := DownloadStatus.COMPLETED } (by decide) (by decide)

/-! Claim C3: cancellation is overwritten by natural completion. -/

/-- Claim C3 (code bug): once a task has been set to `CANCELLED`, the
natural end of the engine call still overwrites the status — the
success path sets `COMPLETED`, the failure path sets `FAILED`
(ytdlp_handler.py:592,609), and an in-flight downloading progress event
sets `DOWNLOADING` (line 487) — none of these consult the current
status, so the terminal `CANCELLED` does not survive. -/
theorem download_completion_overwrites_cancelled :
    (downloadResultUpdate
        { newDownloadTask "t1" "u" with status := DownloadStatus.CANCELLED }
        (Except.ok {}) "u").status = DownloadStatus.COMPLETED
    ∧ (downloadResultUpdate
        { newDownloadTask "t1" "u" with status := DownloadStatus.CANCELLED }
        (Except.error "network error") "u").status = DownloadStatus.FAILED
    ∧ (progress_hook { status := "downloading" }
        { newDownloadTask "t1" "u" with status := DownloadStatus.CANCELLED }).status
        = DownloadStatus.DOWNLOADING
    ∧ DownloadStatus.COMPLETED ≠ DownloadStatus.CANCELLED := by
  exact ⟨rfl, rfl, by decide, by decide⟩

/-! Claim C4: video-only format merge resolution. -/

/-- Claim C4 (code bug): at the point `download_video` resolves the
format selector, the task it consults is the one just created at
ytdlp_handler.py:479, whose `video_info` is still `None` (it is only
assigned at line 593, after the download).  The video-only check
therefore never fires and a specific `formatId="137"` resolves to the
un-merged `"137/best[...]"` selector; the `"137+bestaudio"` merge
selector of line 538 is produced only in the unreachable state where
the task already carries parsed formats. -/
theorem resolve_format_video_only_not_merged :
    resolveFormatStr "https://www.youtube.com/watch?v=abc" "137" false
        (newDownloadTask "t2" "https://www.youtube.com/watch?v=abc")
      = "137/best[ext=mp4][vcodec^=avc1]/best[ext=mp4]/best"
    ∧ resolveFormatStr "https://www.youtube.com/watch?v=abc" "137" false
        { newDownloadTask "t2" "https://www.youtube.com/watch?v=abc" with
          video_info := some videoInfo137 }
      = "137+bestaudio[ext=m4a]/137+bestaudio/137"
    ∧ ("137/best[ext=mp4][vcodec^=avc1]/best[ext=mp4]/best" : String)
      ≠ "137+bestaudio[ext=m4a]/137+bestaudio/137" := by
  exact ⟨by decide, by decide, by decide⟩

/-! Claim C5: normalizer filtering. -/

/-- Claim C5 counterexample: the codec guard at ytdlp_handler.py:350
compares the `.get` results against the literal string `'none'`, and
`dict.get` applies its default only to an absent key — a raw entry
`{'format_id': 'x', 'ext': 'mp4', 'vcodec': None, 'acodec': None}`
yields `None` from both `.get` calls, `None == 'none'` is false, so
the entry is not skipped and is emitted with both codec fields null,
contradicting the claim that no output entry has both codecs
absent/"none". -/
theorem parse_formats_null_codecs_kept :
    (parse_video_info rawInfoNullCodecs "u").formats
      = [{ format_id := "x", ext := "mp4", quality_label := "Unknown" }]
    ∧ ({ format_id := "x", ext := "mp4", quality_label := "Unknown" } : VideoFormat).vcodec
        = none
    ∧ ({ format_id := "x", ext := "mp4", quality_label := "Unknown" } : VideoFormat).acodec
        = none := by
  exact ⟨by decide, rfl, rfl⟩

/-- Claim C5 (amended): every format in the normalizer's output has a
non-empty format id, no denylisted non-media container, and — unless
audio-only — no declared height below 144; it stems from a raw entry
whose note does not contain "storyboard" (case-insensitively) and
whose two codec `.get` results are not both the literal string
`'none'`.  (An entry whose codec keys are present with explicit null
values passes that guard and is emitted with both codec fields null,
so the claim's both-codecs-absent exclusion holds only in the literal
`'none'`/absent-key sense, not for present null values.) -/
theorem parse_formats_filtered (info : RawInfo) (url : String) (e : VideoFormat)
    (he : e ∈ (parse_video_info info url).formats) :
    e.format_id ≠ ""
    ∧ nonMediaExts.contains (strLower e.ext) = false
    ∧ (e.is_audio_only = false → ∀ w h, e.resolution = some (w, h) → 144 ≤ h)
    ∧ ∃ r, r ∈ info.formats ∧ parseFormat r = some e
        ∧ strIn "storyboard" (strLower (r.format_note.getD "")) = false
        ∧ (codecIsNone (getCodecField r.vcodec)
            && codecIsNone (getCodecField r.acodec)) = false := by
  have hmem : e ∈ info.formats.filterMap parseFormat := by
    have heq : (parse_video_info info url).formats
        = sortFormats (info.formats.filterMap parseFormat) := rfl
    rw [heq, sortFormats] at he
    exact (mem_sortByKey fmtKey _ e).mp he
  rcases List.mem_filterMap.mp hmem with ⟨r, hr, hpr⟩
  have hkeep : keepFormat r = true := by
    by_contra hk
    rw [parseFormat, if_neg hk] at hpr
    cases hpr
  have hmk : mkVideoFormat r = e := by
    rw [parseFormat, if_pos hkeep] at hpr
    exact Option.some.inj hpr
  subst hmk
  simp only [keepFormat, Bool.and_eq_true] at hkeep
  obtain ⟨⟨⟨⟨h1, h2⟩, h3⟩, h4⟩, h5⟩ := hkeep
  refine ⟨?_, ?_, ?_, r, hr, hpr, ?_, ?_⟩
  · simp only [optTruthyStr, Bool.not_eq_eq_eq_not, Bool.not_true,
      beq_eq_false_iff_ne, ne_eq] at h1
    simpa [mkVideoFormat] using h1
  · simp only [Bool.not_eq_eq_eq_not, Bool.not_true] at h3
    cases hext : r.ext with
    | none =>
      have : (mkVideoFormat r).ext = "mp4" := by simp [mkVideoFormat, hext]
      rw [this]
      decide
    | some s =>
      have hgoal : (mkVideoFormat r).ext = s := by simp [mkVideoFormat, hext]
      rw [hgoal]
      simpa [hext] using h3
  · intro haud w h hres
    simp only [Bool.not_eq_eq_eq_not, Bool.not_true, heightSkip,
      Bool.and_eq_false_iff] at h5
    have haud2 : rawIsAudioOnly r = false := by
      have : (mkVideoFormat r).is_audio_only = rawIsAudioOnly r := rfl
      rw [← this, haud]
    simp only [mkVideoFormat] at hres
    by_cases hth : optTruthyInt r.height = true
    · rw [if_pos hth] at hres
      have hh : h = r.height.getD 0 := (Prod.mk.injEq _ _ _ _ ▸ Option.some.inj hres).2.symm
      rcases h5 with h5a | h5b
      · rcases h5a with h5c | h5d
        · rw [hth] at h5c
          cases h5c
        · rw [haud2] at h5d
          cases h5d
      · have : ¬ (r.height.getD 0 < 144) := by
          intro hlt
          rw [decide_eq_true hlt] at h5b
          cases h5b
        rw [hh]
        exact le_of_not_lt this
    · rw [if_neg hth] at hres
      cases hres
  · simp only [Bool.not_eq_eq_eq_not, Bool.not_true] at h2
    exact h2
  · simp only [Bool.not_eq_eq_eq_not, Bool.not_true] at h4
    exact h4

/-- Claim C5 witness: the 1080p video-only DASH entry survives the
filter and satisfies every clause of the amended statement. -/
theorem parse_formats_filtered_witness :
    (fmt137 ∈ (parse_video_info rawInfo137 "u").formats)
    ∧ (fmt137.format_id ≠ ""
      ∧ nonMediaExts.contains (strLower fmt137.ext) = false
      ∧ (fmt137.is_audio_only = false → ∀ w h, fmt137.resolution = some (w, h) → 144 ≤ h)
      ∧ ∃ r, r ∈ rawInfo137.formats ∧ parseFormat r = some fmt137
          ∧ strIn "storyboard" (strLower (r.format_note.getD "")) = false
          ∧ (codecIsNone (getCodecField r.vcodec)
              && codecIsNone (getCodecField r.acodec)) = false) :=
  ⟨by decide, parse_formats_filtered rawInfo137 "u" fmt137 (by decide)⟩

/-! Claim C6: normalizer ranking. -/

theorem fmtKey_le_decomp (a b : VideoFormat) (h : fmtKey a ≤ fmtKey b) :
    (a.is_audio_only = true → b.is_audio_only = true)
    ∧ (a.is_audio_only = b.is_audio_only →
        get_resolution_height b ≤ get_resolution_height a
        ∧ (get_resolution_height a = get_resolution_height b →
            b.tbr.getD 0 ≤ a.tbr.getD 0)) := by
  rcases (Prod.Lex.le_iff _ _).mp h with h1 | ⟨heq, h2⟩
  · have hab : a.is_audio_only < b.is_audio_only := h1
    rcases Bool.lt_iff.mp hab with ⟨ha, hb⟩
    refine ⟨fun _ => hb, fun hgroup => ?_⟩
    rw [ha, hb] at hgroup
    cases hgroup
  · have heqb : a.is_audio_only = b.is_audio_only := heq
    refine ⟨fun haud => heqb ▸ haud, fun _ => ?_⟩
    rcases (Prod.Lex.le_iff _ _).mp h2 with h3 | ⟨heq2, h4⟩
    · have h3b : -(get_resolution_height a) < -(get_resolution_height b) := h3
      have hlt : get_resolution_height b < get_resolution_height a := neg_lt_neg_iff.mp h3b
      exact ⟨le_of_lt hlt, fun hEq => absurd (hEq ▸ hlt) (lt_irrefl _)⟩
    · have heq2b : -(get_resolution_height a) = -(get_resolution_height b) := heq2
      have h4b : -(a.tbr.getD 0) ≤ -(b.tbr.getD 0) := h4
      have hEq : get_resolution_height a = get_resolution_height b := neg_inj.mp heq2b
      exact ⟨le_of_eq hEq.symm, fun _ => neg_le_neg_iff.mp h4b⟩

/-- Claim C6: the normalizer's sort puts every non-audio-only entry
before every audio-only entry; within a group heights are
non-increasing and, at equal height, bitrates are non-increasing; and
the sort is stable — for each composite key the subsequence carrying
that key is exactly the input's, in input order. -/
theorem sortFormats_ordering_and_stable (l : List VideoFormat) :
    ((sortFormats l).Pairwise
      (fun a b => a.is_audio_only = true → b.is_audio_only = true))
    ∧ ((sortFormats l).Pairwise
      (fun a b => a.is_audio_only = b.is_audio_only →
          get_resolution_height b ≤ get_resolution_height a
          ∧ (get_resolution_height a = get_resolution_height b →
              b.tbr.getD 0 ≤ a.tbr.getD 0)))
    ∧ (∀ k : Bool × Int × Rat,
        (sortFormats l).filter (fun f => decide (fmtKeyP f = k))
          = l.filter (fun f => decide (fmtKeyP f = k))) := by
  have hsorted := pairwise_sortByKey fmtKey l
  refine ⟨?_, ?_, ?_⟩
  · exact hsorted.imp (fun hab => (fmtKey_le_decomp _ _ hab).1)
  · exact hsorted.imp (fun hab => (fmtKey_le_decomp _ _ hab).2)
  · intro k
    apply filter_sortByKey
    intro a b ha hb
    have ha2 : fmtKeyP a = k := of_decide_eq_true ha
    have hb2 : fmtKeyP b = k := of_decide_eq_true hb
    have : fmtKeyP a = fmtKeyP b := by rw [ha2, hb2]
    unfold fmtKey
    rw [this]

/-! Claim C9: thumbnail selection. -/

/-- Claim C9 counterexample: the source key is the scalar
`preference or width or 0`, not the lexicographic `(preference, width)`
pair.  With `thumbA = (preference 1, width 100)` and
`thumbB = (no preference, width 5000)`, the pair of `thumbA` dominates
lexicographically, yet normalization selects `thumbB`'s url, because
`thumbB`'s scalar key is 5000 against `thumbA`'s 1. -/
theorem parse_thumbnail_not_lex_pair :
    (parse_video_info thumbsInfo "u").thumbnail = some "b"
    ∧ toLex ((thumbB.preference.getD 0 : Int), (thumbB.width.getD 0 : Int))
        < toLex ((thumbA.preference.getD 0 : Int), (thumbA.width.getD 0 : Int))
    ∧ thumbA.url = some "a"
    ∧ (some "a" : Option String) ≠ some "b" := by
  exact ⟨by decide, by decide, by decide, by decide⟩

/-- Claim C9 (amended): among candidates with a truthy url the selected
thumbnail is the url of a candidate whose scalar key
`preference or width or 0` is maximal (the source sorts descending by
that single value, not by the `(preference, width)` pair); with no
candidate, the single default thumbnail field is used (possibly null). -/
theorem parse_thumbnail_scalar_max (info : RawInfo) (url : String) :
    (∀ c rest, info.thumbnails.filter (fun t => optTruthyStr t.url) = c :: rest →
      ∃ best, best ∈ info.thumbnails.filter (fun t => optTruthyStr t.url)
        ∧ (parse_video_info info url).thumbnail = best.url
        ∧ ∀ t2 ∈ info.thumbnails.filter (fun t => optTruthyStr t.url),
            thumbKey t2 ≤ thumbKey best)
    ∧ (info.thumbnails.filter (fun t => optTruthyStr t.url) = [] →
        (parse_video_info info url).thumbnail = info.thumbnail) := by
  have hthumb : (parse_video_info info url).thumbnail
      = pickThumbnail info.thumbnails info.thumbnail := rfl
  constructor
  · intro c rest hcr
    have hne : sortByKey (fun t => -(thumbKey t))
        (info.thumbnails.filter (fun t => optTruthyStr t.url)) ≠ [] := by
      rw [Ne, sortByKey_eq_nil_iff, hcr]
      simp
    obtain ⟨x, xs, hx⟩ := List.exists_cons_of_ne_nil hne
    refine ⟨x, ?_, ?_, ?_⟩
    · have hxmem : x ∈ sortByKey (fun t => -(thumbKey t))
          (info.thumbnails.filter (fun t => optTruthyStr t.url)) := by
        rw [hx]
        exact List.mem_cons_self x xs
      exact (mem_sortByKey _ _ x).mp hxmem
    · rw [hthumb, pickThumbnail, hx]
      rfl
    · intro t2 ht2
      have hmin := sortByKey_head_min (fun t => -(thumbKey t)) _ x xs hx t2 ht2
      exact neg_le_neg_iff.mp hmin
  · intro hnil
    rw [hthumb, pickThumbnail, hnil]
    rfl

/-- Claim C9 witness: on the two-thumbnail sample a best candidate
exists, its url is the selected thumbnail and its scalar key dominates
both candidates. -/
theorem parse_thumbnail_scalar_max_witness :
    ∃ best, best ∈ thumbsInfo.thumbnails.filter (fun t => optTruthyStr t.url)
      ∧ (parse_video_info thumbsInfo "u").thumbnail = best.url
      ∧ ∀ t2 ∈ thumbsInfo.thumbnails.filter (fun t => optTruthyStr t.url),
          thumbKey t2 ≤ thumbKey best :=
  (parse_thumbnail_scalar_max thumbsInfo "u").1 thumbA [thumbB] (by decide)

/-! Claims C7 and C8: cache eviction. -/

theorem evictDecisions_getD (now ma mb : Int) (l : List CacheFile) (total : Int)
    (i : Nat) (h : i < l.length) :
    ((evictDecisions now ma mb l total).getD i false = true
      ↔ (now - (l.getD i ⟨"", 0, 0⟩).mtime > ma * 3600
         ∨ total - removedBytes (l.take i) ((evictDecisions now ma mb l total).take i) > mb)) := by
  induction l generalizing total i with
  | nil => exact absurd h (Nat.not_lt_zero i)
  | cons f rest ih =>
    cases i with
    | zero =>
      simp [evictDecisions, removedBytes, decide_eq_true_eq]
    | succ j =>
      have hj : j < rest.length := Nat.lt_of_succ_lt_succ h
      simp only [evictDecisions, List.getD_cons_succ, List.take_succ_cons, removedBytes]
      cases hc : decide (now - f.mtime > ma * 3600 ∨ total > mb) with
      | false =>
        simp only [hc, Bool.false_eq_true, if_false, zero_add]
        exact ih total j hj
      | true =>
        simp only [hc, if_true, sub_add_eq_sub_sub]
        exact ih (total - f.size) j hj

theorem cacheEvictWalk_noFail (now ma mb : Int) (l : List CacheFile) :
    ∀ total, cacheEvictWalk now ma mb (fun _ => false) l total
      = (selectPaths l (evictDecisions now ma mb l total), true) := by
  induction l with
  | nil => intro total; rfl
  | cons f rest ih =>
    intro total
    by_cases hc : now - f.mtime > ma * 3600 ∨ total > mb
    · have hcd : decide (now - f.mtime > ma * 3600 ∨ total > mb) = true := decide_eq_true hc
      simp only [cacheEvictWalk, evictDecisions, if_pos hc, hcd, if_true,
        Bool.false_eq_true, if_false, selectPaths]
      rw [ih (total - f.size)]
    · have hcd : decide (now - f.mtime > ma * 3600 ∨ total > mb) = false :=
        decide_eq_false hc
      simp only [cacheEvictWalk, evictDecisions, if_neg hc, hcd,
        Bool.false_eq_true, if_false, selectPaths]
      rw [ih total]

/-- Claim C7: over the mtime-ascending listing, the walk of
`cleanup_old_cache` removes the i-th file exactly when its age exceeds
the bound or the running total before its removal (the grand total
minus the sizes already removed among earlier files) exceeds the size
bound; with no filesystem failures the function removes precisely the
files so marked and completes the scan. -/
theorem cleanup_old_cache_characterization (now ma msz : Int) (files : List CacheFile)
    (i : Nat) (h : i < (sortedCache files).length) :
    (((evictDecisions now ma (msz * 1024 * 1024) (sortedCache files)
          (cacheTotal files)).getD i false = true)
      ↔ (now - ((sortedCache files).getD i ⟨"", 0, 0⟩).mtime > ma * 3600
         ∨ cacheTotal files
             - removedBytes ((sortedCache files).take i)
                 ((evictDecisions now ma (msz * 1024 * 1024) (sortedCache files)
                     (cacheTotal files)).take i)
             > msz * 1024 * 1024))
    ∧ cleanup_old_cache now ma msz (fun _ => false) files
        = (selectPaths (sortedCache files)
            (evictDecisions now ma (msz * 1024 * 1024) (sortedCache files)
              (cacheTotal files)), true) :=
  ⟨evictDecisions_getD now ma (msz * 1024 * 1024) (sortedCache files) (cacheTotal files) i h,
   cacheEvictWalk_noFail now ma (msz * 1024 * 1024) (sortedCache files) (cacheTotal files)⟩

/-- Claim C7 witness: the spec's scenario — a 40 MiB file 2 hours old
and a 600 MiB file 30 hours old against bounds of 24 hours and 500 MiB
— removes `def456.mp3` (oldest first, both bounds violated) and retains
`abc123.m4a`. -/
theorem cleanup_old_cache_characterization_witness :
    (0 < (sortedCache cacheScenario).length)
    ∧ (((evictDecisions 108000 24 (500 * 1024 * 1024) (sortedCache cacheScenario)
          (cacheTotal cacheScenario)).getD 0 false = true)
      ↔ (108000 - ((sortedCache cacheScenario).getD 0 ⟨"", 0, 0⟩).mtime > 24 * 3600
         ∨ cacheTotal cacheScenario
             - removedBytes ((sortedCache cacheScenario).take 0)
                 ((evictDecisions 108000 24 (500 * 1024 * 1024) (sortedCache cacheScenario)
                     (cacheTotal cacheScenario)).take 0)
             > 500 * 1024 * 1024))
    ∧ cleanup_old_cache 108000 24 500 (fun _ => false) cacheScenario
        = (["def456.mp3"], true) :=
  ⟨by decide,
   (cleanup_old_cache_characterization 108000 24 500 cacheScenario 0 (by decide)).1,
   by decide⟩

/-- Claim C8 counterexample: in server.py's `cleanup_old_cache` the
whole scan sits in a single `try/except`, so one raising `os.remove`
aborts the scan of the remaining files: with two evictable files where
removing the first fails, nothing is removed and the scan does not
complete, while the same state with no failure removes both. -/
theorem cleanup_old_cache_aborts_on_failed_remove :
    cleanup_old_cache 400000 24 500 (fun p => p == "f1") cacheTwoOld = ([], false)
    ∧ cleanup_old_cache 400000 24 500 (fun _ => false) cacheTwoOld
        = (["f1", "f2"], true) := by
  exact ⟨by decide, by decide⟩

theorem cacheEvictWalk_false_mem (now ma mb : Int) (fails : String → Bool)
    (l : List CacheFile) :
    ∀ total, (cacheEvictWalk now ma mb fails l total).2 = false →
      ∃ g ∈ l, fails g.path = true := by
  induction l with
  | nil =>
    intro total h
    simp [cacheEvictWalk] at h
  | cons f rest ih =>
    intro total h
    by_cases hc : now - f.mtime > ma * 3600 ∨ total > mb
    · simp only [cacheEvictWalk, if_pos hc] at h
      by_cases hf : fails f.path = true
      · exact ⟨f, List.mem_cons_self f rest, hf⟩
      · rw [Bool.not_eq_true] at hf
        simp only [hf, Bool.false_eq_true, if_false] at h
        rcases ih (total - f.size) h with ⟨g, hg, hgf⟩
        exact ⟨g, List.mem_cons_of_mem f hg, hgf⟩
    · simp only [cacheEvictWalk, if_neg hc] at h
      rcases ih total h with ⟨g, hg, hgf⟩
      exact ⟨g, List.mem_cons_of_mem f hg, hgf⟩

/-- Claim C8 (amended): `YTDLPHandler.cleanup_old_files` swallows each
individual removal failure and keeps scanning — every other old file
whose removal does not fail is still removed; server.py's
`cleanup_old_cache` also never propagates the error (it is caught at
function level), but there the failure aborts the scan of the
remaining files, so an incomplete scan implies some removal failed. -/
theorem cleanup_failure_containment (now ma msz : Int) (fails : String → Bool)
    (files : List CacheFile) :
    (∀ f ∈ files, now - f.mtime > ma * 3600 → fails f.path = false →
        f.path ∈ cleanup_old_files now ma fails files)
    ∧ ((cleanup_old_cache now ma msz fails files).2 = false →
        ∃ g ∈ files, fails g.path = true) := by
  constructor
  · intro f hf hage hfail
    apply List.mem_filterMap.mpr
    refine ⟨f, hf, ?_⟩
    rw [if_pos hage, if_neg (by simp [hfail])]
  · intro h
    rcases cacheEvictWalk_false_mem now ma (msz * 1024 * 1024) fails
        (sortedCache files) (cacheTotal files) h with ⟨g, hg, hgf⟩
    exact ⟨g, (mem_sortByKey _ files g).mp hg, hgf⟩

/-- Claim C8 witness: with the removal of the older file `f1` failing,
`cleanup_old_files` still removes the other old file `f2`. -/
theorem cleanup_failure_containment_witness :
    ("f2" : String) ∈ cleanup_old_files 400000 24 (fun p => p == "f1") cacheTwoOld :=
  (cleanup_failure_containment 400000 24 500 (fun p => p == "f1") cacheTwoOld).1
    { path := "f2", mtime := 1, size := 1 } (by decide) (by decide) (by decide)

/-! Claim C1: extraction fallback loop. -/

theorem extractLoop_failure (engine : String → EngineResult) (url : String) :
    ∀ (names : List String) (acc : Option String),
    (∀ s ∈ names, isStrategyFailure (engine s) = true) →
    extractLoop engine url names acc
      = (names, Except.error (get_friendly_error
          ((lastErrorIn engine names acc).getD "All extraction methods failed"))) := by
  intro names
  induction names with
  | nil => intro acc _; rfl
  | cons s rest ih =>
    intro acc hall
    have hs := hall s (List.mem_cons_self s rest)
    have htail : ∀ p ∈ rest, isStrategyFailure (engine p) = true :=
      fun p hp => hall p (List.mem_cons_of_mem s hp)
    cases he : engine s with
    | ok oinfo =>
      cases oinfo with
      | some i =>
        rw [he] at hs
        cases hs
      | none =>
        simp only [extractLoop, he, lastErrorIn, ih acc htail]
    | err m =>
      simp only [extractLoop, he, lastErrorIn, ih (some m) htail]

theorem extractLoop_error_inv (engine : String → EngineResult) (url : String) :
    ∀ (names : List String) (acc : Option String) (e : String),
    (extractLoop engine url names acc).2 = Except.error e →
    ∀ s ∈ names, isStrategyFailure (engine s) = true := by
  intro names
  induction names with
  | nil =>
    intro acc e _ s hs
    exact absurd hs (List.not_mem_nil s)
  | cons s rest ih =>
    intro acc e h
    cases he : engine s with
    | ok oinfo =>
      cases oinfo with
      | some i =>
        simp [extractLoop, he] at h
      | none =>
        simp only [extractLoop, he] at h
        intro q hq
        rcases List.mem_cons.mp hq with rfl | hq2
        · rw [he]; rfl
        · exact ih acc e h q hq2
    | err m =>
      simp only [extractLoop, he] at h
      intro q hq
      rcases List.mem_cons.mp hq with rfl | hq2
      · rw [he]; rfl
      · exact ih (some m) e h q hq2

theorem extractLoop_success (engine : String → EngineResult) (url : String) :
    ∀ (pre : List String) (s : String) (post : List String) (info : RawInfo)
      (acc : Option String),
    (∀ p ∈ pre, isStrategyFailure (engine p) = true) →
    engine s = EngineResult.ok (some info) →
    extractLoop engine url (pre ++ s :: post) acc
      = (pre ++ [s], Except.ok (parse_video_info info url)) := by
  intro pre
  induction pre with
  | nil =>
    intro s post info acc _ hs
    simp only [List.nil_append, extractLoop, hs]
  | cons p ps ih =>
    intro s post info acc hpre hs
    have hp := hpre p (List.mem_cons_self p ps)
    have htail : ∀ q ∈ ps, isStrategyFailure (engine q) = true :=
      fun q hq => hpre q (List.mem_cons_of_mem p hq)
    cases he : engine p with
    | ok o =>
      cases o with
      | some i =>
        rw [he] at hp
        cases hp
      | none =>
        have hrec := ih s post info acc htail hs
        show extractLoop engine url (p :: (ps ++ s :: post)) acc
            = ((p :: ps) ++ [s], Except.ok (parse_video_info info url))
        simp only [extractLoop, he, hrec]
        rfl
    | err m =>
      have hrec := ih s post info (some m) htail hs
      show extractLoop engine url (p :: (ps ++ s :: post)) acc
          = ((p :: ps) ++ [s], Except.ok (parse_video_info info url))
      simp only [extractLoop, he, hrec]
      rfl

/-- Claim C1: when `extract_info` fails it has attempted every strategy
the selector returned for the url, every one of those engine calls
failed, and the raised message is the friendly rendering of the last
recorded engine error (or the stock message when no error text was
recorded); conversely the first strategy whose engine call returns
truthy metadata makes `extract_info` return the parsed `VideoInfo`
immediately, having attempted exactly the failing strategies before it
plus itself. -/
theorem extract_exhaustive_or_first_success (engine : String → EngineResult)
    (url : String) :
    (∀ e, (extract_info engine url).2 = Except.error e →
      (extract_info engine url).1 = get_extraction_strategies url
      ∧ (∀ s ∈ get_extraction_strategies url, isStrategyFailure (engine s) = true)
      ∧ e = get_friendly_error
          ((lastErrorIn engine (get_extraction_strategies url) none).getD
            "All extraction methods failed"))
    ∧ (∀ pre s post info, get_extraction_strategies url = pre ++ s :: post →
        (∀ p ∈ pre, isStrategyFailure (engine p) = true) →
        engine s = EngineResult.ok (some info) →
        extract_info engine url = (pre ++ [s], Except.ok (parse_video_info info url))) := by
  constructor
  · intro e h
    have h2 := extractLoop_error_inv engine url (get_extraction_strategies url) none e h
    have hfail := extractLoop_failure engine url (get_extraction_strategies url) none h2
    have h1 : (extract_info engine url).1 = get_extraction_strategies url := by
      show (extractLoop engine url (get_extraction_strategies url) none).1 = _
      rw [hfail]
    refine ⟨h1, h2, ?_⟩
    have h4 : (extract_info engine url).2
        = Except.error (get_friendly_error
            ((lastErrorIn engine (get_extraction_strategies url) none).getD
              "All extraction methods failed")) := by
      show (extractLoop engine url (get_extraction_strategies url) none).2 = _
      rw [hfail]
    rw [h] at h4
    exact Except.error.inj h4
  · intro pre s post info hsplit hpre hs
    show extractLoop engine url (get_extraction_strategies url) none = _
    rw [hsplit]
    exact extractLoop_success engine url pre s post info none hpre hs

/-- Claim C1 witness: on a generic url whose first strategy raises and
whose second returns truthy metadata, `extract_info` attempts exactly
the first two strategies (not the third) and returns the parsed info. -/
theorem extract_exhaustive_or_first_success_witness :
    extract_info engineStubA "http://example.com/v"
      = (["Default", "No Browser Headers"],
         Except.ok (parse_video_info {} "http://example.com/v")) :=
  (extract_exhaustive_or_first_success engineStubA "http://example.com/v").2
    ["Default"] "No Browser Headers" ["With Geo Bypass"] {} (by decide) (by decide) (by decide)

end MusicVault
